import Mathlib

/-!
Verification of the commodities scraper core (commodities_scraper.py):
cell normalizers, table walker, ranking engine and alert evaluator.

Modelling conventions:
* Python floats are modelled exactly: cell parsing returns a `PyFloat`
  (a finite rational, an infinity, or NaN), since Python float() accepts
  the tokens inf/infinity/nan; record-level numeric fields are rationals.
* Python str.strip / str.lower / str.replace(c, "") / split are modelled
  by structural functions on the character list of the string.
* pandas nlargest(keep=first) and sort_values are modelled as a stable
  descending sort (ties keep the input order).
-/

/-- Whitespace trim on a character list (Python str.strip). -/
def trimL (l : List Char) : List Char :=
  ((l.dropWhile Char.isWhitespace).reverse.dropWhile Char.isWhitespace).reverse

/-- Python str.strip on a string. -/
def pyStrip (s : String) : String := ⟨trimL s.data⟩

/-- Remove every occurrence of the characters in `cs`
(models chained Python str.replace(c, "") with one-character patterns). -/
def removeChars (cs : List Char) (s : String) : String :=
  ⟨s.data.filter (fun c => !cs.contains c)⟩

/-- Python str.lower (ASCII case folding). -/
def lowerStr (s : String) : String := ⟨s.data.map Char.toLower⟩

/-- Python str.split(sep) for a one-character separator. -/
def splitOnChar (sep : Char) : List Char → List (List Char)
  | [] => [[]]
  | c :: t =>
    let r := splitOnChar sep t
    if c = sep then [] :: r
    else
      match r with
      | h :: t2 => (c :: h) :: t2
      | [] => [[c]]

/-- Python str.rsplit(" ", 1): split at the last space, if any. -/
def rsplitSpace : List Char → Option (List Char × List Char)
  | [] => none
  | c :: t =>
    match rsplitSpace t with
    | some (a, b) => some (c :: a, b)
    | none => if c = ' ' then some ([], t) else none

/-- Drop a literal character-list prefix, if present. -/
def dropPre : List Char → List Char → Option (List Char)
  | [], l => some l
  | _ :: _, [] => none
  | p :: ps, c :: cs => if c = p then dropPre ps cs else none

/-- Numeric value of a digit run (most significant first). -/
def digitsVal (l : List Char) : Nat :=
  l.foldl (fun a c => a * 10 + (c.toNat - 48)) 0

/-- A Python float value: finite rational, signed infinity, or NaN. -/
inductive PyFloat where
  | finite : Rat → PyFloat
  | inf : PyFloat
  | neginf : PyFloat
  | nan : PyFloat
deriving DecidableEq

/-- Finiteness of a Python float. -/
def PyFloat.isFinite : PyFloat → Bool
  | .finite _ => true
  | _ => false

/-- Numeric value of a `PyFloat`; the non-finite values (which the scraped
data never produces at record level) are collapsed to 0 when a record is
built. -/
def PyFloat.toVal : PyFloat → Rat
  | .finite q => q
  | _ => 0

/-- Optional leading sign; returns (isNonNegative, rest). -/
def takeSign : List Char → Bool × List Char
  | '+' :: t => (true, t)
  | '-' :: t => (false, t)
  | l => (true, l)

/-- Exponent suffix of a float literal: empty means exponent 0;
otherwise e/E followed by an optionally signed digit run. -/
def expoVal : List Char → Option Int
  | [] => some 0
  | 'e' :: r =>
    let (pos, r2) := takeSign r
    let ds := r2.takeWhile Char.isDigit
    if ds ≠ [] ∧ r2.dropWhile Char.isDigit = [] then
      some (if pos then (digitsVal ds : Int) else -(digitsVal ds : Int))
    else none
  | _ => none

/-- Scale a rational by a signed power of ten. -/
def scalePow10 (q : Rat) (e : Int) : Rat :=
  if 0 ≤ e then q * (10 : Rat) ^ e.toNat else q / (10 : Rat) ^ (-e).toNat

/-- Finite decimal literal (digits, optional fraction, optional exponent),
already lowercased and sign-stripped. -/
def decimalVal : List Char → Option Rat
  | l =>
    let ip := l.takeWhile Char.isDigit
    let r1 := l.dropWhile Char.isDigit
    match r1 with
    | '.' :: r2 =>
      let fp := r2.takeWhile Char.isDigit
      let r3 := r2.dropWhile Char.isDigit
      if ip = [] ∧ fp = [] then none
      else
        (expoVal r3).map fun e =>
          scalePow10 ((digitsVal ip : Rat) + (digitsVal fp : Rat) / (10 : Rat) ^ fp.length) e
    | _ =>
      if ip = [] then none
      else (expoVal r1).map fun e => scalePow10 ((digitsVal ip : Rat)) e

/-- The IEEE-754 double overflow test: CPython's float() silently turns a
decimal literal into an infinity (no exception) once its exact magnitude
reaches 2^1024 - 2^970, the round-to-nearest boundary above the largest
finite double. -/
def overflowsDouble (q : Rat) : Bool :=
  decide ((2 : Rat) ^ 1024 - 2 ^ 970 ≤ q)

/-- Model of Python float(s): strips whitespace, case-insensitive,
accepts an optional sign followed by inf, infinity, nan, or a decimal
literal with optional fraction and exponent; a decimal literal at or
beyond the double overflow boundary becomes a signed infinity, exactly
as in CPython.  (The underscore digit separator of recent Python and the
rounding of in-range values to the nearest double are not modelled; no
cell format uses the former and no claim depends on the latter.) -/
def pyFloat (s : String) : Option PyFloat :=
  let t := (trimL s.data).map Char.toLower
  let (pos, rest) := takeSign t
  if rest = ['i', 'n', 'f'] ∨ rest = ['i', 'n', 'f', 'i', 'n', 'i', 't', 'y'] then
    some (if pos then .inf else .neginf)
  else if rest = ['n', 'a', 'n'] then some .nan
  else
    (decimalVal rest).map fun q =>
      if overflowsDouble q then (if pos then .inf else .neginf)
      else .finite (if pos then q else -q)

/-- True iff the cleaned text is a token Python float() maps to a
non-finite value (a signed spelling of inf, infinity or nan). -/
def nonFiniteToken (s : String) : Bool :=
  let t := (trimL s.data).map Char.toLower
  let (_, rest) := takeSign t
  rest = ['i', 'n', 'f'] ∨ rest = ['i', 'n', 'f', 'i', 'n', 'i', 't', 'y'] ∨
    rest = ['n', 'a', 'n']

/-- True iff the cleaned text is a decimal literal whose exact value
reaches the double overflow boundary, which CPython's float() maps to a
signed infinity without raising. -/
def overflowToken (s : String) : Bool :=
  let t := (trimL s.data).map Char.toLower
  let (_, rest) := takeSign t
  match decimalVal rest with
  | some q => overflowsDouble q
  | none => false

namespace TableParser

/-- TableParser._parse_number: remove commas and spaces, strip, then
Python float(); ValueError falls back to 0.0. -/
def parse_number (text : String) : PyFloat :=
  let cleaned := pyStrip (removeChars [',', ' '] text)
  match pyFloat cleaned with
  | some v => v
  | none => .finite 0

/-- TableParser._parse_percentage: remove percent signs and spaces, strip;
empty or a lone dash is 0.0; otherwise Python float() with fallback 0.0. -/
def parse_percentage (text : String) : PyFloat :=
  let cleaned := pyStrip (removeChars ['%', ' '] text)
  if cleaned = "" ∨ cleaned = "-" then .finite 0
  else
    match pyFloat cleaned with
    | some v => v
    | none => .finite 0

end TableParser

/-- Month abbreviations recognised by strptime %b (C locale),
matched case-insensitively. -/
def monthAbbrevs : List (List Char × Nat) :=
  [(['j','a','n'], 1), (['f','e','b'], 2), (['m','a','r'], 3),
   (['a','p','r'], 4), (['m','a','y'], 5), (['j','u','n'], 6),
   (['j','u','l'], 7), (['a','u','g'], 8), (['s','e','p'], 9),
   (['o','c','t'], 10), (['n','o','v'], 11), (['d','e','c'], 12)]

/-- Days per month in 2025 (not a leap year); strptime validates the day
against the month when building the datetime. -/
def monthDays : Nat → Nat
  | 1 => 31 | 2 => 28 | 3 => 31 | 4 => 30 | 5 => 31 | 6 => 30
  | 7 => 31 | 8 => 31 | 9 => 30 | 10 => 31 | 11 => 30 | _ => 31

/-- strptime %b applied to the month part: the text must start with a
month abbreviation (case-insensitive) and any remainder must be
whitespace (it is absorbed by the whitespace between %b and %d). -/
def matchMonth (s : String) : Option Nat :=
  let t := s.data.map Char.toLower
  (monthAbbrevs.filterMap fun (a, m) =>
    match dropPre a t with
    | some rest => if rest.all Char.isWhitespace then some m else none
    | none => none).head?

/-- strptime %d applied to the day part: optional surrounding whitespace
around a one- or two-digit day in 1..31. -/
def matchDay (s : String) : Option Nat :=
  let l := s.data.dropWhile Char.isWhitespace
  let ds := l.takeWhile Char.isDigit
  let rest := l.dropWhile Char.isDigit
  if rest.all Char.isWhitespace ∧ (ds.length = 1 ∨ ds.length = 2) ∧
      1 ≤ digitsVal ds ∧ digitsVal ds ≤ 31 then
    some (digitsVal ds)
  else none

/-- Two-digit zero-padded decimal (strftime %m / %d). -/
def two (n : Nat) : String := ⟨[Char.ofNat (48 + n / 10), Char.ofNat (48 + n % 10)]⟩

/-- strftime "%Y/%m/%d" with the hard-coded year 2025. -/
def fmtDate (m d : Nat) : String := "2025/" ++ two m ++ "/" ++ two d

namespace TableParser

/-- TableParser._parse_date: empty or blank input gives ""; otherwise the
stripped text is split on "/"; with exactly two parts the month and day
are parsed by strptime("%b %d %Y") against the fixed year 2025 and
reformatted as YYYY/MM/DD; any failure returns the input unchanged. -/
def parse_date (date_str : String) : String :=
  if date_str = "" ∨ pyStrip date_str = "" then ""
  else
    match splitOnChar '/' (trimL date_str.data) with
    | [month_str, day_str] =>
      match matchMonth ⟨month_str⟩, matchDay ⟨day_str⟩ with
      | some m, some d => if d ≤ monthDays m then fmtDate m d else date_str
      | _, _ => date_str
    | _ => date_str

end TableParser

/-- One normalized commodity record (the Commodity dataclass; numeric
fields are the record-level rational values). -/
structure Commodity where
  asset : String
  name : String
  unit : String
  price : Rat
  change : Rat
  daily_pct : Rat
  weekly_pct : Rat
  monthly_pct : Rat
  yearly_pct : Rat
  three_year_pct : Rat
  date : String
deriving DecidableEq

/-- One table cell: its text nodes in document order
(BeautifulSoup find_all(text=True)). -/
structure Cell where
  fragments : List String
deriving DecidableEq

/-- get_text(strip=True): concatenation of the stripped text nodes. -/
def Cell.getText (c : Cell) : String :=
  String.join (c.fragments.map pyStrip)

/-- The stripped, non-empty text nodes of a cell
([elem.strip() for elem in text_elements if elem.strip()]). -/
def Cell.cleanElements (c : Cell) : List String :=
  (c.fragments.map pyStrip).filter (fun e => e ≠ "")

/-- One table row: its th cells and its td cells in document order
(row.find("th") is the first th; row.find_all("td") the td list). -/
structure Row where
  ths : List Cell
  tds : List Cell
deriving DecidableEq

namespace TableParser

/-- TableParser._split_name_unit_from_cell: with at least two clean text
fragments the first is the name and the second the unit; with exactly one
it is rsplit at the last space; with none both are empty. -/
def split_name_unit_from_cell (cell : Cell) : String × String :=
  match cell.cleanElements with
  | a :: b :: _ => (a, b)
  | [a] =>
    (match rsplitSpace a.data with
     | some (n, u) => (⟨n⟩, ⟨u⟩)
     | none => (a, ""))
  | [] => ("", "")

/-- TableParser._parse_row: extract the fixed columns of a data row
(index 0 the name/unit cell, 1..7 the numeric cells, 8 the optional date
cell); on a row with fewer than eight cells the indexing raises and the
row is rejected as a whole (the Optional return, never a partial
record). -/
def parse_row (cols : List Cell) (asset_category : String) : Option Commodity :=
  match cols with
  | name_unit_cell :: c1 :: c2 :: c3 :: c4 :: c5 :: c6 :: c7 :: rest =>
    let nu := split_name_unit_from_cell name_unit_cell
    some
      { asset := asset_category
        name := nu.1
        unit := nu.2
        price := (parse_number c1.getText).toVal
        change := (parse_number c2.getText).toVal
        daily_pct := (parse_percentage c3.getText).toVal
        weekly_pct := (parse_percentage c4.getText).toVal
        monthly_pct := (parse_percentage c5.getText).toVal
        yearly_pct := (parse_percentage c6.getText).toVal
        three_year_pct := (parse_percentage c7.getText).toVal
        date := parse_date (((rest.head?).map Cell.getText).getD "") }
  | _ => none

/-- The column-legend texts that are never treated as a category name. -/
def columnLabels : List String := ["Price", "Day", "%", "Week", "Month", "Year", "3Y"]

/-- One step of TableParser.parse_tables over a row, threading the
current category and the accumulated records: a row with a th is a header
row (its td cells, if any, are never examined); a non-empty header text
outside the column legend updates the category; a row with at least eight
td cells is parsed as a data row; anything else is ignored. -/
def parseStep (st : String × List Commodity) (row : Row) : String × List Commodity :=
  match row.ths.head? with
  | some h =>
    let header_text := h.getText
    if header_text ≠ "" ∧ header_text ∉ columnLabels then (header_text, st.2) else st
  | none =>
    if 8 ≤ row.tds.length then
      match parse_row row.tds st.1 with
      | some c => (st.1, st.2 ++ [c])
      | none => st
    else st

/-- TableParser.parse_tables: fold over all rows starting from the
Unknown category; the final state. -/
def parse_tables_state (rows : List Row) : String × List Commodity :=
  rows.foldl parseStep ("Unknown", [])

/-- TableParser.parse_tables: the accumulated records. -/
def parse_tables (rows : List Row) : List Commodity :=
  (parse_tables_state rows).2

end TableParser

/-- Insert into a descending-sorted list: the new element passes every
element that strictly beats it (lt x b), so it lands after all earlier
elements with an equal key — a stable descending insertion. -/
def insertD (lt : α → α → Bool) (x : α) : List α → List α
  | [] => [x]
  | b :: t => if lt x b then b :: insertD lt x t else x :: b :: t

/-- Stable descending sort (models pandas sort_values(ascending=False)
and nlargest(keep="first"): ties keep the input order). -/
def sortDesc (lt : α → α → Bool) : List α → List α
  | [] => []
  | x :: t => insertD lt x (sortDesc lt t)

/-- pandas DataFrame.nlargest(n, column): stable descending sort by the
column, first n rows (keep="first" prioritises earlier rows on ties). -/
def nlargest (n : Nat) (key : α → Rat) (l : List α) : List α :=
  (sortDesc (fun a b => decide (key a < key b)) l).take n

/-- pandas Series.unique: the values in first-seen order. -/
def uniqueFirstAux (seen : List String) : List String → List String
  | [] => []
  | x :: t =>
    if seen.contains x then uniqueFirstAux seen t
    else x :: uniqueFirstAux (x :: seen) t

/-- First-seen-order distinct values (df["Asset"].unique()). -/
def uniqueFirst (l : List String) : List String := uniqueFirstAux [] l

namespace CommodityDataManager

/-- The unique asset categories of the record set, in first-seen order. -/
def categoriesOf (l : List Commodity) : List String :=
  uniqueFirst (l.map (fun c => c.asset))

/-- The rows of one asset category, in input order
(df[df["Asset"] == category]). -/
def categoryDf (l : List Commodity) (category : String) : List Commodity :=
  l.filter (fun c => c.asset == category)

/-- CommodityDataManager.get_top_performers: df.nlargest(n, period) —
on the DataFrame built from an empty record list there are no columns at
all, so the column lookup raises KeyError; otherwise the global top n by
the chosen metric, descending, earlier rows first on ties. -/
def get_top_performers (key : Commodity → Rat) (n : Nat) (l : List Commodity) :
    Except String (List Commodity) :=
  if l.isEmpty then .error "KeyError" else .ok (nlargest n key l)

/-- CommodityDataManager.get_top_by_category: df["Asset"].unique()
raises KeyError on the column-less empty DataFrame; otherwise per
category (in first-seen order) the top n by the metric, concatenated. -/
def get_top_by_category (key : Commodity → Rat) (n : Nat) (l : List Commodity) :
    Except String (List Commodity) :=
  if l.isEmpty then .error "KeyError"
  else .ok ((categoriesOf l).flatMap (fun c => nlargest n key (categoryDf l c)))

/-- The top-3 names of a category for one period
(category_df.nlargest(3, period)["Name"]). -/
def top3Names (key : Commodity → Rat) (cd : List Commodity) : List String :=
  (nlargest 3 key cd).map (fun c => c.name)

/-- One strong-lead row: the record data plus the match information (the
code packs match_count and matched_periods into the single string
"count/4 (D,W,...)"; they are modelled as the two components). -/
structure LeadRow where
  asset : String
  name : String
  unit : String
  price : Rat
  daily_pct : Rat
  weekly_pct : Rat
  monthly_pct : Rat
  yearly_pct : Rat
  date : String
  match_count : Nat
  matched_periods : List String
deriving DecidableEq

/-- count_top3_appearances: one period label and count unit per top-3 set
containing the name, in the order D, W, M, Y. -/
def mkLeadRow (t3d t3w t3m t3y : List String) (r : Commodity) : LeadRow :=
  { asset := r.asset
    name := r.name
    unit := r.unit
    price := r.price
    daily_pct := r.daily_pct
    weekly_pct := r.weekly_pct
    monthly_pct := r.monthly_pct
    yearly_pct := r.yearly_pct
    date := r.date
    match_count :=
      (if t3d.contains r.name then 1 else 0) + (if t3w.contains r.name then 1 else 0) +
        (if t3m.contains r.name then 1 else 0) + (if t3y.contains r.name then 1 else 0)
    matched_periods :=
      (if t3d.contains r.name then ["D"] else []) ++ (if t3w.contains r.name then ["W"] else []) ++
        (if t3m.contains r.name then ["M"] else []) ++ (if t3y.contains r.name then ["Y"] else []) }

/-- The strong-lead rows of one category: the rows whose name is in the
union of the four per-period top-3 name sets, in input order, with their
match information. -/
def strongLeadsFor (cd : List Commodity) : List LeadRow :=
  let t3d := top3Names (fun c => c.daily_pct) cd
  let t3w := top3Names (fun c => c.weekly_pct) cd
  let t3m := top3Names (fun c => c.monthly_pct) cd
  let t3y := top3Names (fun c => c.yearly_pct) cd
  (cd.filter fun r =>
      t3d.contains r.name || t3w.contains r.name || t3m.contains r.name ||
        t3y.contains r.name).map
    (mkLeadRow t3d t3w t3m t3y)

/-- The per-category strong-lead blocks concatenated in first-seen
category order (pd.concat(result_frames)). -/
def combinedLeads (l : List Commodity) : List LeadRow :=
  (categoriesOf l).flatMap (fun c => strongLeadsFor (categoryDf l c))

/-- The cross-category sort key: (match count, daily %, weekly %) for a
single-period match, (match count, weekly %, monthly %) otherwise. -/
def leadKey (e : LeadRow) : Nat × Rat × Rat :=
  if e.match_count == 1 then (e.match_count, e.daily_pct, e.weekly_pct)
  else (e.match_count, e.weekly_pct, e.monthly_pct)

/-- Lexicographic order on sort keys (Python tuple comparison). -/
def keyLt (a b : Nat × Rat × Rat) : Bool :=
  decide (a.1 < b.1 ∨ (a.1 = b.1 ∧ (a.2.1 < b.2.1 ∨ (a.2.1 = b.2.1 ∧ a.2.2 < b.2.2))))

/-- A ranked output row: global rank, rank within the asset category, and
the underlying entry. -/
structure Ranked (α : Type) where
  rank : Nat
  rank_asset : Nat
  entry : α
deriving DecidableEq

/-- Rank assignment: global rank counts up from i; rank_asset is the
per-asset running counter kept in the association list (the model of
groupby("Asset").cumcount() + 1). -/
def addRanksGo (f : α → String) (i : Nat) (counts : List (String × Nat)) :
    List α → List (Ranked α)
  | [] => []
  | x :: t =>
    let c := ((counts.lookup (f x)).getD 0) + 1
    ⟨i, c, x⟩ :: addRanksGo f (i + 1) ((f x, c) :: counts) t

/-- Insert the Rank column (1-based positions) and the Rank_Asset column
(1-based per-asset running counter) in the given order. -/
def addRanks (f : α → String) (l : List α) : List (Ranked α) :=
  addRanksGo f 1 [] l

/-- The ranked strong-leads table: the combined per-category rows put in
the order produced by the sort implementation, then ranked globally and
within each asset category. The sort is a parameter because the code
calls sort_values("_sort_tuple", ascending=False) with the default
kind="quicksort": pandas only guarantees a permutation that descends in
the key — the relative order of equal keys is implementation-defined. -/
def rankLeads (sortImpl : List LeadRow → List LeadRow) (l : List Commodity) :
    List (Ranked LeadRow) :=
  addRanks (fun e => e.asset) (sortImpl (combinedLeads l))

/-- CommodityDataManager.get_strong_leads: df["Asset"].unique() raises
KeyError on the column-less empty DataFrame; otherwise the ranked
strong-leads table under the given sort implementation. -/
def get_strong_leads (sortImpl : List LeadRow → List LeadRow) (l : List Commodity) :
    Except String (List (Ranked LeadRow)) :=
  if l.isEmpty then .error "KeyError" else .ok (rankLeads sortImpl l)

/-- The short-term candidate rows of one category: among rows with
positive daily % and positive weekly %, the single highest daily %. -/
def shortTermFor (cd : List Commodity) : List Commodity :=
  nlargest 1 (fun r => r.daily_pct)
    (cd.filter fun r => decide (0 < r.daily_pct) && decide (0 < r.weekly_pct))

/-- The mid-term candidate rows of one category: among rows with positive
weekly % and positive monthly %, the single highest weekly %. -/
def midTermFor (cd : List Commodity) : List Commodity :=
  nlargest 1 (fun r => r.weekly_pct)
    (cd.filter fun r => decide (0 < r.weekly_pct) && decide (0 < r.monthly_pct))

/-- The long-term candidate rows of one category: among rows with positive
yearly % and positive monthly %, the single highest yearly %. -/
def longTermFor (cd : List Commodity) : List Commodity :=
  nlargest 1 (fun r => r.yearly_pct)
    (cd.filter fun r => decide (0 < r.yearly_pct) && decide (0 < r.monthly_pct))

/-- The three timeframe buckets of get_investment_opportunities. -/
structure Opportunities where
  short_term : List (Ranked Commodity)
  mid_term : List (Ranked Commodity)
  long_term : List (Ranked Commodity)
deriving DecidableEq

/-- CommodityDataManager.get_investment_opportunities:
df["Asset"].unique() raises KeyError on the column-less empty DataFrame;
otherwise per category at most one candidate per timeframe, concatenated
in first-seen category order, then ranked globally and within each asset
category per bucket. -/
def get_investment_opportunities (l : List Commodity) : Except String Opportunities :=
  if l.isEmpty then .error "KeyError"
  else
    let categories := categoriesOf l
    .ok
      { short_term :=
          addRanks (fun c => c.asset)
            (categories.flatMap fun c => shortTermFor (categoryDf l c))
        mid_term :=
          addRanks (fun c => c.asset)
            (categories.flatMap fun c => midTermFor (categoryDf l c))
        long_term :=
          addRanks (fun c => c.asset)
            (categories.flatMap fun c => longTermFor (categoryDf l c)) }

end CommodityDataManager

/-- A fired price alert (the PriceAlert dataclass). -/
structure PriceAlert where
  commodity_name : String
  asset_type : String
  current_price : Rat
  previous_price : Rat
  price_change : Rat
  percent_change : Rat
  daily_pct : Rat
  weekly_pct : Rat
  date : String
deriving DecidableEq

/-- A price-alert subscription (delivery destinations are out of scope of
the evaluator; only the watched name and the threshold drive it). -/
structure Subscription where
  commodity_name : String
  min_percent_change : Rat
deriving DecidableEq

/-- The previous-day row returned by the persistence lookup. -/
structure PrevData where
  price : Rat
  daily_pct : Rat
  weekly_pct : Rat
deriving DecidableEq

namespace AlertService

/-- The name match used for a subscription: record name and subscribed
name compared lowercased. -/
def nameMatches (sub : Subscription) (r : Commodity) : Bool :=
  lowerStr r.name == lowerStr sub.commodity_name

/-- The alert decision for one subscription given the matched current
row: look up the previous-day data under the subscribed name and the
row's asset; without it the subscription is skipped; otherwise the
percent change (0 when the previous price is 0) fires an alert iff its
absolute value reaches the threshold. -/
def checkRow (previous : String → String → Option PrevData) (sub : Subscription)
    (current_row : Commodity) : Option PriceAlert :=
  match previous sub.commodity_name current_row.asset with
  | none => none
  | some previous_data =>
    let price_change := current_row.price - previous_data.price
    let percent_change :=
      if previous_data.price ≠ 0 then price_change / previous_data.price * 100 else 0
    if sub.min_percent_change ≤ |percent_change| then
      some
        { commodity_name := current_row.name
          asset_type := current_row.asset
          current_price := current_row.price
          previous_price := previous_data.price
          price_change := price_change
          percent_change := percent_change
          daily_pct := current_row.daily_pct
          weekly_pct := current_row.weekly_pct
          date := current_row.date }
    else none

/-- One subscription of AlertService.check_and_send_alerts: the first
record whose lowercased name equals the lowercased subscribed name is the
current row (iloc[0]); a subscription with no matching record is skipped. -/
def check_subscription (current_data : List Commodity)
    (previous : String → String → Option PrevData) (sub : Subscription) :
    Option PriceAlert :=
  match current_data.find? (nameMatches sub) with
  | none => none
  | some current_row => checkRow previous sub current_row

/-- AlertService.check_and_send_alerts: the alerts fired across the
subscription list, in subscription order. -/
def check_and_send_alerts (current_data : List Commodity)
    (previous : String → String → Option PrevData) (subs : List Subscription) :
    List PriceAlert :=
  subs.filterMap (check_subscription current_data previous)

end AlertService

section SortLemmas

variable {α : Type} (lt : α → α → Bool)

theorem insertD_perm (x : α) (l : List α) : List.Perm (insertD lt x l) (x :: l) := by
  induction l with
  | nil => simp [insertD]
  | cons b t ih =>
    simp only [insertD]
    split
    · exact (ih.cons b).trans (List.Perm.swap x b t)
    · exact List.Perm.refl _

theorem sortDesc_perm (l : List α) : List.Perm (sortDesc lt l) l := by
  induction l with
  | nil => simp [sortDesc]
  | cons x t ih => exact (insertD_perm lt x (sortDesc lt t)).trans (ih.cons x)

theorem mem_sortDesc {x : α} {l : List α} : x ∈ sortDesc lt l ↔ x ∈ l :=
  (sortDesc_perm lt l).mem_iff

theorem length_sortDesc (l : List α) : (sortDesc lt l).length = l.length :=
  (sortDesc_perm lt l).length_eq

theorem insertD_pairwise
    (hasymm : ∀ a b, lt a b = true → lt b a = false)
    (htransneg : ∀ a b c, lt a b = false → lt b c = false → lt a c = false)
    {x : α} {l : List α} (h : l.Pairwise (fun a b => lt a b = false)) :
    (insertD lt x l).Pairwise (fun a b => lt a b = false) := by
  induction l with
  | nil => simp [insertD]
  | cons b t ih =>
    simp only [insertD]
    rcases List.pairwise_cons.mp h with ⟨hb, ht⟩
    split
    · rename_i hlt
      refine List.pairwise_cons.mpr ⟨?_, ih ht⟩
      intro y hy
      rcases List.mem_cons.mp ((insertD_perm lt x t).mem_iff.mp hy) with h1 | h2
      · subst h1; exact hasymm _ _ hlt
      · exact hb y h2
    · rename_i hge
      simp only [Bool.not_eq_true] at hge
      refine List.pairwise_cons.mpr ⟨?_, h⟩
      intro y hy
      rcases List.mem_cons.mp hy with h1 | h2
      · subst h1; exact hge
      · exact htransneg x b y hge (hb y h2)

theorem sortDesc_pairwise
    (hasymm : ∀ a b, lt a b = true → lt b a = false)
    (htransneg : ∀ a b c, lt a b = false → lt b c = false → lt a c = false)
    (l : List α) :
    (sortDesc lt l).Pairwise (fun a b => lt a b = false) := by
  induction l with
  | nil => simp [sortDesc]
  | cons x t ih => exact insertD_pairwise lt hasymm htransneg ih

theorem filter_insertD (p : α → Bool)
    (hcomp : ∀ a b, p a = true → p b = true → lt a b = false)
    (x : α) (l : List α) :
    (insertD lt x l).filter p =
      (if p x then [x] else []) ++ l.filter p := by
  induction l with
  | nil =>
    simp only [insertD, List.filter_cons, List.filter_nil]
    split <;> simp_all
  | cons b t ih =>
    simp only [insertD]
    split
    · rename_i hlt
      by_cases hb : p b = true
      · by_cases hx : p x = true
        · exact absurd hlt (by simp [hcomp x b hx hb])
        · simp only [Bool.not_eq_true] at hx
          simp [List.filter_cons, hb, ih, hx]
      · simp only [Bool.not_eq_true] at hb
        simp [List.filter_cons, hb, ih]
    · simp only [List.filter_cons]
      split <;> simp [List.filter_cons]

theorem filter_sortDesc (p : α → Bool)
    (hcomp : ∀ a b, p a = true → p b = true → lt a b = false)
    (l : List α) :
    (sortDesc lt l).filter p = l.filter p := by
  induction l with
  | nil => simp [sortDesc]
  | cons x t ih =>
    simp only [sortDesc, filter_insertD lt p hcomp, ih, List.filter_cons]
    split <;> simp_all

theorem sortDesc_head_max
    (hasymm : ∀ a b, lt a b = true → lt b a = false)
    (htransneg : ∀ a b c, lt a b = false → lt b c = false → lt a c = false)
    (hirr : ∀ a, lt a a = false)
    {l : List α} {r : α} {t : List α} (h : sortDesc lt l = r :: t) :
    ∀ s ∈ l, lt r s = false := by
  intro s hs
  have hmem : s ∈ r :: t := h ▸ (mem_sortDesc lt).mpr hs
  rcases List.mem_cons.mp hmem with h1 | h2
  · subst h1; exact hirr _
  · have hp := sortDesc_pairwise lt hasymm htransneg l
    rw [h] at hp
    exact (List.pairwise_cons.mp hp).1 s h2

end SortLemmas

section KeyOrder

variable {α : Type}

theorem decideKeyLt_asymm {β : Type} [LinearOrder β] (key : α → β) (a b : α) :
    decide (key a < key b) = true → decide (key b < key a) = false := by
  simp only [decide_eq_true_eq, decide_eq_false_iff_not]
  exact fun h => not_lt_of_gt h

theorem decideKeyLt_transneg {β : Type} [LinearOrder β] (key : α → β) (a b c : α) :
    decide (key a < key b) = false → decide (key b < key c) = false →
      decide (key a < key c) = false := by
  simp only [decide_eq_false_iff_not, not_lt]
  exact fun h1 h2 => le_trans h2 h1

theorem decideKeyLt_irr {β : Type} [LinearOrder β] (key : α → β) (a : α) :
    decide (key a < key a) = false := by
  simp

/-- The sort-key triple seen as a lexicographically ordered value. -/
def keyEmbed (a : Nat × Rat × Rat) : Lex (Nat × Lex (Rat × Rat)) :=
  toLex (a.1, toLex (a.2.1, a.2.2))

theorem keyLt_eq_embed (a b : Nat × Rat × Rat) :
    CommodityDataManager.keyLt a b = decide (keyEmbed a < keyEmbed b) := by
  refine decide_eq_decide.mpr ?_
  rw [keyEmbed, keyEmbed, Prod.Lex.lt_iff, Prod.Lex.lt_iff]

end KeyOrder

section RankLemmas

open CommodityDataManager

variable {α : Type}

/-- The running per-category counter, specified directly: each element is
tagged with one plus the number of same-category elements before it. -/
def prefixCounts (f : α → String) : List α → List α → List Nat
  | _, [] => []
  | pre, x :: t =>
    (1 + (pre.filter (fun y => f y == f x)).length) :: prefixCounts f (pre ++ [x]) t

theorem addRanksGo_map_entry (f : α → String) (i : Nat) (cnt : List (String × Nat))
    (l : List α) : (addRanksGo f i cnt l).map (fun e => e.entry) = l := by
  induction l generalizing i cnt with
  | nil => rfl
  | cons x t ih => simp [addRanksGo, ih]

theorem addRanksGo_map_rank (f : α → String) (i : Nat) (cnt : List (String × Nat))
    (l : List α) : (addRanksGo f i cnt l).map (fun e => e.rank) = List.range' i l.length := by
  induction l generalizing i cnt with
  | nil => rfl
  | cons x t ih => simp [addRanksGo, ih, List.range']

theorem addRanksGo_map_rank_asset (f : α → String) (i : Nat)
    (cnt : List (String × Nat)) (pre l : List α)
    (hcnt : ∀ s, (cnt.lookup s).getD 0 = (pre.filter (fun y => f y == s)).length) :
    (addRanksGo f i cnt l).map (fun e => e.rank_asset) = prefixCounts f pre l := by
  induction l generalizing i cnt pre with
  | nil => rfl
  | cons x t ih =>
    simp only [addRanksGo, List.map_cons, prefixCounts]
    rw [hcnt (f x), Nat.add_comm]
    congr 1
    · refine ih (i + 1) _ (pre ++ [x]) ?_
      intro s
      by_cases hs : s = f x
      · subst hs
        simp [List.lookup, hcnt (f x), List.filter_append, Nat.add_comm]
      · have hs2 : (s == f x) = false := beq_false_of_ne hs
        have hs3 : (f x == s) = false := beq_false_of_ne (Ne.symm hs)
        simp [List.lookup, hs2, hs3, hcnt s, List.filter_append]

theorem addRanks_map_entry (f : α → String) (l : List α) :
    (addRanks f l).map (fun e => e.entry) = l :=
  addRanksGo_map_entry f 1 [] l

theorem addRanks_map_rank (f : α → String) (l : List α) :
    (addRanks f l).map (fun e => e.rank) = List.range' 1 l.length :=
  addRanksGo_map_rank f 1 [] l

theorem addRanks_map_rank_asset (f : α → String) (l : List α) :
    (addRanks f l).map (fun e => e.rank_asset) = prefixCounts f [] l := by
  refine addRanksGo_map_rank_asset f 1 [] [] l ?_
  intro s
  simp [List.lookup]

end RankLemmas

section ParseRowLemmas

/-- Unfolding of parse_row on a row with at least eight cells. -/
theorem parse_row_cons (c0 c1 c2 c3 c4 c5 c6 c7 : Cell) (rest : List Cell) (cat : String) :
    TableParser.parse_row (c0 :: c1 :: c2 :: c3 :: c4 :: c5 :: c6 :: c7 :: rest) cat =
      some
        { asset := cat
          name := (TableParser.split_name_unit_from_cell c0).1
          unit := (TableParser.split_name_unit_from_cell c0).2
          price := (TableParser.parse_number c1.getText).toVal
          change := (TableParser.parse_number c2.getText).toVal
          daily_pct := (TableParser.parse_percentage c3.getText).toVal
          weekly_pct := (TableParser.parse_percentage c4.getText).toVal
          monthly_pct := (TableParser.parse_percentage c5.getText).toVal
          yearly_pct := (TableParser.parse_percentage c6.getText).toVal
          three_year_pct := (TableParser.parse_percentage c7.getText).toVal
          date :=
            TableParser.parse_date (((rest.head?).map Cell.getText).getD "") } := rfl

/-- Field extraction succeeds exactly on rows with at least eight cells;
on success the record carries the active category. -/
theorem parse_row_cases (cols : List Cell) (cat : String) :
    (cols.length < 8 ∧ TableParser.parse_row cols cat = none) ∨
      (8 ≤ cols.length ∧ ∃ c, TableParser.parse_row cols cat = some c ∧ c.asset = cat) := by
  rcases cols with _ | ⟨c0, _ | ⟨c1, _ | ⟨c2, _ | ⟨c3, _ | ⟨c4, _ | ⟨c5, _ | ⟨c6, _ | ⟨c7, rest⟩⟩⟩⟩⟩⟩⟩⟩
  · exact Or.inl ⟨by simp, rfl⟩
  · exact Or.inl ⟨by simp, rfl⟩
  · exact Or.inl ⟨by simp, rfl⟩
  · exact Or.inl ⟨by simp, rfl⟩
  · exact Or.inl ⟨by simp, rfl⟩
  · exact Or.inl ⟨by simp, rfl⟩
  · exact Or.inl ⟨by simp [Nat.lt_succ_iff], rfl⟩
  · exact Or.inl ⟨by simp [Nat.lt_succ_iff], rfl⟩
  · exact Or.inr ⟨by simp, ⟨_, parse_row_cons c0 c1 c2 c3 c4 c5 c6 c7 rest cat, rfl⟩⟩

theorem parse_row_none {cols : List Cell} (cat : String) (h : cols.length < 8) :
    TableParser.parse_row cols cat = none := by
  rcases parse_row_cases cols cat with ⟨_, h2⟩ | ⟨h1, _⟩
  · exact h2
  · omega

theorem parse_row_isSome_iff (cols : List Cell) (cat : String) :
    (TableParser.parse_row cols cat).isSome = true ↔ 8 ≤ cols.length := by
  rcases parse_row_cases cols cat with ⟨h1, h2⟩ | ⟨h1, c, h2, _⟩
  · simp [h2]; omega
  · simp [h2, h1]

end ParseRowLemmas

/-- C1 (code bug): the claim and spec require every ranking operation to
return an empty collection on the empty record sequence, but the
DataFrame built from an empty record list has no columns, so
df.nlargest(n, period) in get_top_performers and df["Asset"].unique() in
the other three operations raise KeyError instead; on any non-empty
record list the operations return normally. -/
theorem claim_C1 :
    (∀ (key : Commodity → Rat) (n : Nat),
        CommodityDataManager.get_top_performers key n [] = .error "KeyError")
    ∧ (∀ (key : Commodity → Rat) (n : Nat),
        CommodityDataManager.get_top_by_category key n [] = .error "KeyError")
    ∧ (∀ sortImpl, CommodityDataManager.get_strong_leads sortImpl [] = .error "KeyError")
    ∧ CommodityDataManager.get_investment_opportunities [] = .error "KeyError"
    ∧ (∀ (key : Commodity → Rat) (n : Nat) (c : Commodity) (rest : List Commodity),
        CommodityDataManager.get_top_performers key n (c :: rest) =
          .ok (nlargest n key (c :: rest)))
    ∧ (∀ (sortImpl : List CommodityDataManager.LeadRow → List CommodityDataManager.LeadRow)
        (c : Commodity) (rest : List Commodity),
        CommodityDataManager.get_strong_leads sortImpl (c :: rest) =
          .ok (CommodityDataManager.rankLeads sortImpl (c :: rest))) :=
  ⟨fun _ _ => rfl, fun _ _ => rfl, fun _ => rfl, rfl, fun _ _ _ _ => rfl, fun _ _ _ => rfl⟩

/-- C7 counterexample: the whitespace-only input " " does not split into
two "/"-separated parts, yet parse_date does not return it unchanged — it
is normalized to the empty string by the blank-input branch. -/
theorem claim_C7_cex :
    TableParser.parse_date " " = "" ∧ (" " : String) ≠ "" ∧
      (splitOnChar '/' (trimL (" " : String).data)).length = 1 :=
  ⟨by decide, by decide, by decide⟩

/-- C7 (amended): parse_date maps "Nov/28" to "2025/11/28" under the fixed
reference year 2025, maps empty and whitespace-only input to the empty
string, and returns any non-blank input unchanged whenever it does not
split into exactly two "/"-separated parts or the month abbreviation is
unrecognized. -/
theorem claim_C7 :
    TableParser.parse_date "Nov/28" = "2025/11/28"
    ∧ TableParser.parse_date "" = ""
    ∧ TableParser.parse_date "garbage" = "garbage"
    ∧ (∀ s : String, pyStrip s = "" → TableParser.parse_date s = "")
    ∧ (∀ s : String, pyStrip s ≠ "" → (splitOnChar '/' (trimL s.data)).length ≠ 2 →
        TableParser.parse_date s = s)
    ∧ (∀ (s : String) (m d : List Char), pyStrip s ≠ "" →
        splitOnChar '/' (trimL s.data) = [m, d] → matchMonth ⟨m⟩ = none →
        TableParser.parse_date s = s) := by
  have hblank : ∀ s : String, pyStrip s ≠ "" → ¬(s = "" ∨ pyStrip s = "") := by
    rintro s h1 (rfl | hc)
    · exact h1 rfl
    · exact h1 hc
  refine ⟨by decide, by decide, by decide, ?_, ?_, ?_⟩
  · intro s h
    simp [TableParser.parse_date, h]
  · intro s h1 h2
    rw [TableParser.parse_date, if_neg (hblank s h1)]
    rcases hsp : splitOnChar '/' (trimL s.data) with _ | ⟨a, _ | ⟨b, _ | ⟨c, t⟩⟩⟩
    · rfl
    · rfl
    · exact absurd (by simp [hsp]) h2
    · rfl
  · intro s m d h1 hsp hm
    rw [TableParser.parse_date, if_neg (hblank s h1), hsp]
    rcases hd : matchDay ⟨d⟩ with _ | d2 <;> simp [hm, hd]

/-- C8 counterexample: parse_number("inf") and parse_percentage("nan")
return non-finite values (Python float() accepts the inf and nan
tokens), and parse_number("1e400") is non-finite as well (CPython's
float() silently overflows the literal to inf), so the two normalizers
do not always return a finite float. -/
theorem claim_C8_cex :
    (TableParser.parse_number "inf").isFinite = false
    ∧ (TableParser.parse_percentage "nan").isFinite = false
    ∧ (TableParser.parse_number "1e400").isFinite = false := by
  refine ⟨by decide, by decide, ?_⟩
  have h1 : TableParser.parse_number "1e400" =
      (if overflowsDouble (scalePow10 ((digitsVal ['1'] : Rat))
            ((digitsVal ['4', '0', '0'] : Int))) then
        PyFloat.inf
      else
        PyFloat.finite (scalePow10 ((digitsVal ['1'] : Rat))
          ((digitsVal ['4', '0', '0'] : Int)))) := rfl
  have hd1 : digitsVal ['1'] = 1 := by decide
  have hd4 : digitsVal ['4', '0', '0'] = 400 := by decide
  rw [h1, hd1, hd4]
  have hov : overflowsDouble (scalePow10 ((1 : Nat) : Rat) ((400 : Nat) : Int)) = true := by
    rw [overflowsDouble, scalePow10, if_pos (by norm_num)]
    rw [decide_eq_true_eq]
    push_cast
    norm_num
  rw [if_pos hov]
  rfl

theorem pyFloat_nonfinite_token {s : String} {v : PyFloat} (h : pyFloat s = some v)
    (hnf : v.isFinite = false) :
    nonFiniteToken s = true ∨ overflowToken s = true := by
  rw [pyFloat] at h
  rw [nonFiniteToken, overflowToken]
  rcases htk : takeSign ((trimL s.data).map Char.toLower) with ⟨pos, rest⟩
  rw [htk] at h
  simp only at h ⊢
  by_cases h1 : rest = ['i', 'n', 'f'] ∨ rest = ['i', 'n', 'f', 'i', 'n', 'i', 't', 'y']
  · exact Or.inl (by rcases h1 with h1 | h1 <;> simp [h1])
  · by_cases h2 : rest = ['n', 'a', 'n']
    · exact Or.inl (by simp [h2])
    · rw [if_neg h1, if_neg h2] at h
      rcases Option.map_eq_some'.mp h with ⟨q, hq, hv⟩
      rcases hov : overflowsDouble q with _ | _
      · exfalso
        rw [hov] at hv
        simp only [Bool.false_eq_true, if_false] at hv
        rw [← hv] at hnf
        by_cases hp : pos = true <;> simp [hp, PyFloat.isFinite] at hnf
      · exact Or.inr (by simp [hq, hov])

/-- C8 (amended): parse_number and parse_percentage are total (never
raise); on unparseable input both return 0.0, and parse_percentage
returns 0.0 for empty input and a lone dash after cleaning; the result
is always a float but is finite except when the cleaned text is an
inf/infinity/nan token or a decimal literal at or beyond the double
overflow boundary — inputs Python float() maps to a non-finite value
without raising. -/
theorem claim_C8 : ∀ s : String,
    ((TableParser.parse_number s).isFinite = true ∨
      nonFiniteToken (pyStrip (removeChars [',', ' '] s)) = true ∨
      overflowToken (pyStrip (removeChars [',', ' '] s)) = true)
    ∧ ((TableParser.parse_percentage s).isFinite = true ∨
      nonFiniteToken (pyStrip (removeChars ['%', ' '] s)) = true ∨
      overflowToken (pyStrip (removeChars ['%', ' '] s)) = true)
    ∧ (pyFloat (pyStrip (removeChars [',', ' '] s)) = none →
        TableParser.parse_number s = .finite 0)
    ∧ (pyStrip (removeChars ['%', ' '] s) = "" ∨ pyStrip (removeChars ['%', ' '] s) = "-" →
        TableParser.parse_percentage s = .finite 0) := by
  intro s
  refine ⟨?_, ?_, ?_, ?_⟩
  · rw [TableParser.parse_number]
    rcases hp : pyFloat (pyStrip (removeChars [',', ' '] s)) with _ | v
    · simp [PyFloat.isFinite]
    · simp only
      by_cases hv : v.isFinite = true
      · exact Or.inl hv
      · exact Or.inr (pyFloat_nonfinite_token hp (by simpa using hv))
  · rw [TableParser.parse_percentage]
    by_cases hc : pyStrip (removeChars ['%', ' '] s) = "" ∨ pyStrip (removeChars ['%', ' '] s) = "-"
    · simp [hc, PyFloat.isFinite]
    · rw [if_neg hc]
      rcases hp : pyFloat (pyStrip (removeChars ['%', ' '] s)) with _ | v
      · simp [PyFloat.isFinite]
      · simp only
        by_cases hv : v.isFinite = true
        · exact Or.inl hv
        · exact Or.inr (pyFloat_nonfinite_token hp (by simpa using hv))
  · intro hp
    rw [TableParser.parse_number, hp]
  · intro hc
    rw [TableParser.parse_percentage, if_pos hc]

/-- C8 witness: the fallback and empty-input rules at concrete inputs. -/
theorem claim_C8_witness :
    TableParser.parse_number "abc" = .finite 0 ∧ TableParser.parse_percentage "-" = .finite 0 :=
  ⟨(claim_C8 "abc").2.2.1 (by decide), (claim_C8 "-").2.2.2 (by decide)⟩

/-- C7 witness: the unchanged-return rule applied at concrete inputs with
no slash and with an unrecognized month abbreviation. -/
theorem claim_C7_witness :
    TableParser.parse_date "a-b" = "a-b" ∧ TableParser.parse_date "foo/28" = "foo/28" :=
  ⟨claim_C7.2.2.2.2.1 "a-b" (by decide) (by decide),
    claim_C7.2.2.2.2.2 "foo/28" ['f', 'o', 'o'] ['2', '8'] (by decide) (by decide) (by decide)⟩

/-- The effect of one walker step on a row without a label cell: the
category is unchanged and at most one record with the current category is
appended. -/
theorem parseStep_data (st : String × List Commodity) (r : Row) (hr : r.ths = []) :
    (TableParser.parseStep st r).1 = st.1 ∧
      ∀ c ∈ (TableParser.parseStep st r).2, c ∈ st.2 ∨ c.asset = st.1 := by
  simp only [TableParser.parseStep, hr, List.head?_nil]
  by_cases h8 : 8 ≤ r.tds.length
  · rw [if_pos h8]
    rcases parse_row_cases r.tds st.1 with ⟨hlt, _⟩ | ⟨_, c, hsome, hasset⟩
    · omega
    · rw [hsome]
      refine ⟨rfl, fun x hx => ?_⟩
      rcases List.mem_append.mp hx with h | h
      · exact Or.inl h
      · simp only [List.mem_singleton] at h
        exact Or.inr (h ▸ hasset)
  · rw [if_neg h8]
    exact ⟨rfl, fun c hc => Or.inl hc⟩

/-- Walking rows that all lack a label cell keeps the starting category
and only appends records carrying that category. -/
theorem parse_allData (rows : List Row) :
    ∀ st : String × List Commodity, (∀ r ∈ rows, r.ths = []) →
      (List.foldl TableParser.parseStep st rows).1 = st.1 ∧
        ∀ c ∈ (List.foldl TableParser.parseStep st rows).2, c ∈ st.2 ∨ c.asset = st.1 := by
  induction rows with
  | nil => exact fun st _ => ⟨rfl, fun c hc => Or.inl hc⟩
  | cons r t ih =>
    intro st hall
    have hr : r.ths = [] := hall r (by simp)
    obtain ⟨hs1, hs2⟩ := parseStep_data st r hr
    obtain ⟨ih1, ih2⟩ :=
      ih (TableParser.parseStep st r) (fun x hx => hall x (List.mem_cons_of_mem r hx))
    rw [List.foldl_cons]
    refine ⟨ih1.trans hs1, fun c hc => ?_⟩
    rcases ih2 c hc with h | h
    · rcases hs2 c h with h2 | h2
      · exact Or.inl h2
      · exact Or.inr h2
    · exact Or.inr (h.trans hs1)

/-- C5 counterexample: a row holding both a label cell ("Energy") and
eight data cells. The claim classifies it as a data row (a label cell
plus data cells fails its header test), so with eight cells it would
yield a record; the code classifies any row with a th as a header row,
yields nothing, and takes "Energy" as the category. -/
theorem claim_C5_cex :
    TableParser.parse_tables
        [{ ths := [⟨["Energy"]⟩]
           tds := [⟨["Gold", "USD"]⟩, ⟨["x"]⟩, ⟨["x"]⟩, ⟨["-"]⟩, ⟨["-"]⟩, ⟨["-"]⟩,
             ⟨["-"]⟩, ⟨["-"]⟩] }] = []
    ∧ TableParser.parse_tables_state
        [{ ths := [⟨["Energy"]⟩]
           tds := [⟨["Gold", "USD"]⟩, ⟨["x"]⟩, ⟨["x"]⟩, ⟨["-"]⟩, ⟨["-"]⟩, ⟨["-"]⟩,
             ⟨["-"]⟩, ⟨["-"]⟩] }] = ("Energy", [])
    ∧ (TableParser.parse_row
        [⟨["Gold", "USD"]⟩, ⟨["x"]⟩, ⟨["x"]⟩, ⟨["-"]⟩, ⟨["-"]⟩, ⟨["-"]⟩, ⟨["-"]⟩,
          ⟨["-"]⟩] "Unknown").isSome = true :=
  ⟨by decide, by decide, by decide⟩

/-- C5 (amended): a row is classified as a header row iff it contains a
label cell — its data cells, if any, are ignored (even eight or more of
them never produce a record); a header whose text is in the fixed set
{Price, Day, %, Week, Month, Year, 3Y} never updates the tracked
category; a row without a label cell and at least eight data cells is
processed as a data row; data rows processed before any header row has
been seen receive category "Unknown". -/
theorem claim_C5 :
    (∀ (st : String × List Commodity) (r : Row), r.ths ≠ [] →
        (TableParser.parseStep st r).2 = st.2)
    ∧ (∀ (st : String × List Commodity) (r : Row) (h : Cell) (t : List Cell),
        r.ths = h :: t → h.getText ∈ TableParser.columnLabels →
        TableParser.parseStep st r = st)
    ∧ (∀ (st : String × List Commodity) (r : Row), r.ths = [] → 8 ≤ r.tds.length →
        ∃ c, TableParser.parse_row r.tds st.1 = some c ∧
          (TableParser.parseStep st r).2 = st.2 ++ [c])
    ∧ (∀ rows : List Row, (∀ r ∈ rows, r.ths = []) →
        ∀ c ∈ TableParser.parse_tables rows, c.asset = "Unknown") := by
  refine ⟨?_, ?_, ?_, ?_⟩
  · intro st r hr
    rcases hths : r.ths with _ | ⟨h, t⟩
    · exact absurd hths hr
    · simp only [TableParser.parseStep, hths, List.head?_cons]
      split <;> rfl
  · intro st r h t hths hmem
    simp only [TableParser.parseStep, hths, List.head?_cons]
    rw [if_neg]
    simp [hmem]
  · intro st r hths h8
    rcases parse_row_cases r.tds st.1 with ⟨hlt, _⟩ | ⟨_, c, hsome, _⟩
    · omega
    · refine ⟨c, hsome, ?_⟩
      simp only [TableParser.parseStep, hths, List.head?_nil]
      rw [if_pos h8, hsome]
  · intro rows hall c hc
    obtain ⟨_, h2⟩ := parse_allData rows ("Unknown", []) hall
    rcases h2 c hc with h | h
    · simp at h
    · exact h

/-- C5 witness: the amended header rules at concrete rows — a legend row
(text "Price") leaves the state unchanged, and a data row before any
header is parsed under category "Unknown". -/
theorem claim_C5_witness :
    TableParser.parseStep ("Unknown", [])
        { ths := [⟨["Price"]⟩], tds := [] } = ("Unknown", [])
    ∧ ∀ c ∈ TableParser.parse_tables
        [{ ths := []
           tds := [⟨["Gold", "USD"]⟩, ⟨["x"]⟩, ⟨["x"]⟩, ⟨["-"]⟩, ⟨["-"]⟩, ⟨["-"]⟩,
             ⟨["-"]⟩, ⟨["-"]⟩] }], c.asset = "Unknown" :=
  ⟨claim_C5.2.1 ("Unknown", []) { ths := [⟨["Price"]⟩], tds := [] } ⟨["Price"]⟩ []
      rfl (by decide),
    claim_C5.2.2.2
      [{ ths := []
         tds := [⟨["Gold", "USD"]⟩, ⟨["x"]⟩, ⟨["x"]⟩, ⟨["-"]⟩, ⟨["-"]⟩, ⟨["-"]⟩,
           ⟨["-"]⟩, ⟨["-"]⟩] }]
      (by intro r hr; simp only [List.mem_singleton] at hr; rw [hr])⟩

/-- C6: extraction fails exactly on rows with fewer than eight cells, and
a failing data row is discarded whole while parsing continues: inserting
such a row anywhere changes nothing, so a table of N valid rows plus one
invalid row produces exactly the N records of the valid rows. -/
theorem claim_C6 :
    (∀ (cols : List Cell) (cat : String),
        (TableParser.parse_row cols cat).isSome = true ↔ 8 ≤ cols.length)
    ∧ (∀ (pre post : List Row) (bad : Row), bad.ths = [] →
        (∀ cat, TableParser.parse_row bad.tds cat = none) →
        TableParser.parse_tables (pre ++ bad :: post) =
          TableParser.parse_tables (pre ++ post)) := by
  constructor
  · exact parse_row_isSome_iff
  · intro pre post bad hths hbad
    have hskip : ∀ st, TableParser.parseStep st bad = st := by
      intro st
      simp only [TableParser.parseStep, hths, List.head?_nil]
      by_cases h8 : 8 ≤ bad.tds.length
      · rw [if_pos h8, hbad st.1]
      · rw [if_neg h8]
    rw [TableParser.parse_tables, TableParser.parse_tables,
      TableParser.parse_tables_state, TableParser.parse_tables_state,
      List.foldl_append, List.foldl_append, List.foldl_cons, hskip]

/-- C6 witness: two valid data rows around one invalid (two-cell) row
parse to exactly the two records of the valid rows. -/
theorem claim_C6_witness :
    TableParser.parse_tables
        [{ ths := []
           tds := [⟨["Gold", "USD"]⟩, ⟨["x"]⟩, ⟨["x"]⟩, ⟨["-"]⟩, ⟨["-"]⟩, ⟨["-"]⟩,
             ⟨["-"]⟩, ⟨["-"]⟩] },
         { ths := [], tds := [⟨["junk"]⟩, ⟨["x"]⟩] },
         { ths := []
           tds := [⟨["Oil", "Bbl"]⟩, ⟨["x"]⟩, ⟨["x"]⟩, ⟨["-"]⟩, ⟨["-"]⟩, ⟨["-"]⟩,
             ⟨["-"]⟩, ⟨["-"]⟩] }] =
      TableParser.parse_tables
        [{ ths := []
           tds := [⟨["Gold", "USD"]⟩, ⟨["x"]⟩, ⟨["x"]⟩, ⟨["-"]⟩, ⟨["-"]⟩, ⟨["-"]⟩,
             ⟨["-"]⟩, ⟨["-"]⟩] },
         { ths := []
           tds := [⟨["Oil", "Bbl"]⟩, ⟨["x"]⟩, ⟨["x"]⟩, ⟨["-"]⟩, ⟨["-"]⟩, ⟨["-"]⟩,
             ⟨["-"]⟩, ⟨["-"]⟩] }]
    ∧ (TableParser.parse_tables
        [{ ths := []
           tds := [⟨["Gold", "USD"]⟩, ⟨["x"]⟩, ⟨["x"]⟩, ⟨["-"]⟩, ⟨["-"]⟩, ⟨["-"]⟩,
             ⟨["-"]⟩, ⟨["-"]⟩] },
         { ths := [], tds := [⟨["junk"]⟩, ⟨["x"]⟩] },
         { ths := []
           tds := [⟨["Oil", "Bbl"]⟩, ⟨["x"]⟩, ⟨["x"]⟩, ⟨["-"]⟩, ⟨["-"]⟩, ⟨["-"]⟩,
             ⟨["-"]⟩, ⟨["-"]⟩] }]).length = 2 :=
  ⟨claim_C6.2
      [{ ths := []
         tds := [⟨["Gold", "USD"]⟩, ⟨["x"]⟩, ⟨["x"]⟩, ⟨["-"]⟩, ⟨["-"]⟩, ⟨["-"]⟩,
           ⟨["-"]⟩, ⟨["-"]⟩] }]
      [{ ths := []
         tds := [⟨["Oil", "Bbl"]⟩, ⟨["x"]⟩, ⟨["x"]⟩, ⟨["-"]⟩, ⟨["-"]⟩, ⟨["-"]⟩,
           ⟨["-"]⟩, ⟨["-"]⟩] }]
      { ths := [], tds := [⟨["junk"]⟩, ⟨["x"]⟩] } rfl
      (fun cat => parse_row_none cat (by decide)),
    by decide⟩

section NlargestLemmas

variable {α : Type}

theorem mem_nlargest {n : Nat} {key : α → Rat} {l : List α} {x : α}
    (h : x ∈ nlargest n key l) : x ∈ l :=
  (mem_sortDesc _).mp (List.mem_of_mem_take h)

theorem length_nlargest_le (n : Nat) (key : α → Rat) (l : List α) :
    (nlargest n key l).length ≤ n :=
  List.length_take_le n _

theorem nlargest_one_max {key : α → Rat} {l : List α} {x : α}
    (h : x ∈ nlargest 1 key l) : ∀ s ∈ l, key s ≤ key x := by
  rw [nlargest] at h
  rcases hs : sortDesc (fun a b => decide (key a < key b)) l with _ | ⟨r, t⟩
  · rw [hs] at h
    simp at h
  · rw [hs, List.take_succ_cons, List.take_zero, List.mem_singleton] at h
    subst h
    intro s hsl
    have := sortDesc_head_max (fun a b => decide (key a < key b))
      (decideKeyLt_asymm key) (decideKeyLt_transneg key) (decideKeyLt_irr key) hs s hsl
    simpa using this

theorem nlargest_nil_of_filter {n : Nat} (key : α → Rat) : nlargest n key [] = [] := by
  simp [nlargest, sortDesc]

end NlargestLemmas

/-- C4: the short-term candidate of a category is drawn only from records
with positive daily AND positive weekly percent; it is the single highest
daily percent among them; a record with non-positive daily percent is
never selected (whatever its weekly percent); a category without a
doubly-positive record contributes no short-term candidate. -/
theorem claim_C4 (cd : List Commodity) :
    (∀ r ∈ CommodityDataManager.shortTermFor cd,
        r ∈ cd ∧ 0 < r.daily_pct ∧ 0 < r.weekly_pct ∧
          ∀ s ∈ cd, 0 < s.daily_pct → 0 < s.weekly_pct → s.daily_pct ≤ r.daily_pct)
    ∧ (CommodityDataManager.shortTermFor cd).length ≤ 1
    ∧ (∀ r ∈ cd, r.daily_pct ≤ 0 → r ∉ CommodityDataManager.shortTermFor cd)
    ∧ ((∀ r ∈ cd, ¬(0 < r.daily_pct ∧ 0 < r.weekly_pct)) →
        CommodityDataManager.shortTermFor cd = []) := by
  have hmemchar : ∀ r ∈ CommodityDataManager.shortTermFor cd,
      r ∈ cd ∧ 0 < r.daily_pct ∧ 0 < r.weekly_pct := by
    intro r hr
    have h2 := mem_nlargest hr
    rw [List.mem_filter] at h2
    refine ⟨h2.1, ?_, ?_⟩ <;> [skip; skip] <;>
      · have := h2.2
        simp only [Bool.and_eq_true, decide_eq_true_eq] at this
        first | exact this.1 | exact this.2
  refine ⟨?_, ?_, ?_, ?_⟩
  · intro r hr
    obtain ⟨h1, h2, h3⟩ := hmemchar r hr
    refine ⟨h1, h2, h3, ?_⟩
    intro s hs hsd hsw
    refine nlargest_one_max hr s ?_
    rw [List.mem_filter]
    exact ⟨hs, by simp [hsd, hsw]⟩
  · exact length_nlargest_le 1 _ _
  · intro r _ hd hmem
    obtain ⟨_, h2, _⟩ := hmemchar r hmem
    exact absurd h2 (not_lt.mpr hd)
  · intro hnone
    have hfil : cd.filter
        (fun r => decide (0 < r.daily_pct) && decide (0 < r.weekly_pct)) = [] := by
      rw [List.filter_eq_nil_iff]
      intro a ha
      have := hnone a ha
      simp only [Bool.and_eq_true, decide_eq_true_eq]
      exact fun hc => this hc
    rw [CommodityDataManager.shortTermFor, hfil]
    exact nlargest_nil_of_filter _

/-- A two-record category used to witness the short-term selection rule. -/
def demoShortA : Commodity :=
  { asset := "Metals", name := "A", unit := "u", price := 0, change := 0,
    daily_pct := -2, weekly_pct := 3, monthly_pct := 0, yearly_pct := 0,
    three_year_pct := 0, date := "" }

/-- The doubly-positive record of the witness category. -/
def demoShortB : Commodity :=
  { asset := "Metals", name := "B", unit := "u", price := 0, change := 0,
    daily_pct := 1, weekly_pct := 1, monthly_pct := 0, yearly_pct := 0,
    three_year_pct := 0, date := "" }

/-- C4 witness: the record with daily -2 and the category's highest
weekly (3) is never the short-term candidate; the doubly-positive record
is selected instead. -/
theorem claim_C4_witness :
    demoShortA.daily_pct ≤ 0
    ∧ demoShortA ∉ CommodityDataManager.shortTermFor [demoShortA, demoShortB]
    ∧ CommodityDataManager.shortTermFor [demoShortA, demoShortB] = [demoShortB] :=
  ⟨by decide,
    (claim_C4 [demoShortA, demoShortB]).2.2.1 demoShortA (by decide) (by decide),
    by decide⟩

theorem find?_first {α : Type} {p : α → Bool} (l1 l2 : List α) (r : α) (hr : p r = true)
    (hl : ∀ x ∈ l1, p x = false) : List.find? p (l1 ++ r :: l2) = some r := by
  induction l1 with
  | nil => simp [List.find?_cons, hr]
  | cons x t ih =>
    have hx : p x = false := hl x (by simp)
    simp only [List.cons_append, List.find?_cons, hx, cond_false]
    exact ih (fun y hy => hl y (List.mem_cons_of_mem x hy))

/-- C10: a subscription is matched against the record names with both
sides lowercased; with no matching record the subscription yields nothing
(silently skipped); with several matching records the first one in record
order is the row used for the alert computation. -/
theorem claim_C10 (data : List Commodity) (prevf : String → String → Option PrevData)
    (sub : Subscription) :
    (∀ r : Commodity, AlertService.nameMatches sub r = true ↔
        lowerStr r.name = lowerStr sub.commodity_name)
    ∧ ((∀ r ∈ data, AlertService.nameMatches sub r = false) →
        AlertService.check_subscription data prevf sub = none)
    ∧ (∀ (l1 l2 : List Commodity) (r : Commodity),
        data = l1 ++ r :: l2 → AlertService.nameMatches sub r = true →
        (∀ x ∈ l1, AlertService.nameMatches sub x = false) →
        AlertService.check_subscription data prevf sub =
          AlertService.checkRow prevf sub r) := by
  refine ⟨?_, ?_, ?_⟩
  · intro r
    simp [AlertService.nameMatches]
  · intro hnone
    rw [AlertService.check_subscription,
      List.find?_eq_none.mpr (fun x hx => by simp [hnone x hx])]
  · intro l1 l2 r hdata hr hl1
    rw [AlertService.check_subscription, hdata, find?_first l1 l2 r hr hl1]

/-- Alert-service demo records: a non-matching record first, then two
records whose names differ from the subscribed name only by case. -/
def demoAlertData : List Commodity :=
  [{ asset := "Metals", name := "Silver", unit := "u", price := 10, change := 0,
     daily_pct := 0, weekly_pct := 0, monthly_pct := 0, yearly_pct := 0,
     three_year_pct := 0, date := "" },
   { asset := "Metals", name := "GOLD", unit := "u", price := 101, change := 0,
     daily_pct := 0, weekly_pct := 0, monthly_pct := 0, yearly_pct := 0,
     three_year_pct := 0, date := "" },
   { asset := "Metals", name := "Gold", unit := "u", price := 55, change := 0,
     daily_pct := 0, weekly_pct := 0, monthly_pct := 0, yearly_pct := 0,
     three_year_pct := 0, date := "" }]

/-- C10 witness: the subscription "gold" picks the first case-insensitive
match (the record named "GOLD"), and a subscription with no matching
record is skipped. -/
theorem claim_C10_witness :
    AlertService.check_subscription demoAlertData (fun _ _ => none)
        { commodity_name := "gold", min_percent_change := 1 } =
      AlertService.checkRow (fun _ _ => none)
        { commodity_name := "gold", min_percent_change := 1 }
        { asset := "Metals", name := "GOLD", unit := "u", price := 101, change := 0,
          daily_pct := 0, weekly_pct := 0, monthly_pct := 0, yearly_pct := 0,
          three_year_pct := 0, date := "" }
    ∧ AlertService.check_subscription demoAlertData (fun _ _ => none)
        { commodity_name := "copper", min_percent_change := 1 } = none :=
  ⟨(claim_C10 demoAlertData (fun _ _ => none)
        { commodity_name := "gold", min_percent_change := 1 }).2.2
      [{ asset := "Metals", name := "Silver", unit := "u", price := 10, change := 0,
         daily_pct := 0, weekly_pct := 0, monthly_pct := 0, yearly_pct := 0,
         three_year_pct := 0, date := "" }]
      [{ asset := "Metals", name := "Gold", unit := "u", price := 55, change := 0,
         daily_pct := 0, weekly_pct := 0, monthly_pct := 0, yearly_pct := 0,
         three_year_pct := 0, date := "" }]
      { asset := "Metals", name := "GOLD", unit := "u", price := 101, change := 0,
        daily_pct := 0, weekly_pct := 0, monthly_pct := 0, yearly_pct := 0,
        three_year_pct := 0, date := "" }
      (by decide) (by decide) (by decide),
    (claim_C10 demoAlertData (fun _ _ => none)
        { commodity_name := "copper", min_percent_change := 1 }).2.1 (by decide)⟩

/-- An option produced by a guarded some is present iff the guard holds. -/
theorem isSome_ite_some {β : Type} {c : Prop} [Decidable c] {x : β} :
    ((if c then some x else none).isSome = true) ↔ c := by
  split <;> simp_all

/-- A guarded some equal to some a forces a to be the guarded value. -/
theorem eq_of_ite_some {β : Type} {c : Prop} [Decidable c] {x a : β}
    (h : (if c then some x else none) = some a) : a = x := by
  split at h
  · injection h with h
    exact h.symm
  · cases h

/-- C9: for a matched current row, the evaluator skips the subscription
when the previous-day lookup is empty (never a zero-change alert), and
otherwise fires an alert exactly when the absolute percent change — the
price change over the previous price times 100, or 0 when the previous
price is 0 — reaches the subscription threshold (at least, not strictly
above), with the alert carrying those computed values. -/
theorem claim_C9 (prevf : String → String → Option PrevData) (sub : Subscription)
    (row : Commodity) :
    (prevf sub.commodity_name row.asset = none →
        AlertService.checkRow prevf sub row = none)
    ∧ (∀ pd : PrevData, prevf sub.commodity_name row.asset = some pd →
        ((AlertService.checkRow prevf sub row).isSome = true ↔
          sub.min_percent_change ≤
            |if pd.price = 0 then 0 else (row.price - pd.price) / pd.price * 100|)
        ∧ (∀ a, AlertService.checkRow prevf sub row = some a →
            a.percent_change =
                (if pd.price = 0 then 0 else (row.price - pd.price) / pd.price * 100)
              ∧ a.price_change = row.price - pd.price
              ∧ a.current_price = row.price ∧ a.previous_price = pd.price)) := by
  have hswap : ∀ pd : PrevData,
      (if pd.price ≠ 0 then (row.price - pd.price) / pd.price * 100 else 0) =
        (if pd.price = 0 then 0 else (row.price - pd.price) / pd.price * 100) := by
    intro pd
    by_cases h0 : pd.price = 0 <;> simp [h0]
  constructor
  · intro h
    rw [AlertService.checkRow, h]
  · intro pd hpd
    rw [AlertService.checkRow, hpd]
    simp only [← hswap pd]
    refine ⟨isSome_ite_some, ?_⟩
    intro a ha
    have hax := eq_of_ite_some ha
    subst hax
    exact ⟨rfl, rfl, rfl, rfl⟩

/-- The current row used by the alert-threshold witness. -/
def demoGold : Commodity :=
  { asset := "Metals", name := "Gold", unit := "u", price := 101, change := 0,
    daily_pct := 0, weekly_pct := 0, monthly_pct := 0, yearly_pct := 0,
    three_year_pct := 0, date := "" }

/-- C9 witness: previous price 100, current price 101, threshold 1.0 —
the percent change is exactly 1.0 and the alert fires (the comparison is
at-least, not strictly-above); with no previous data the subscription is
skipped. -/
theorem claim_C9_witness :
    (AlertService.checkRow
        (fun _ _ => some { price := 100, daily_pct := 0, weekly_pct := 0 })
        { commodity_name := "gold", min_percent_change := 1 } demoGold).isSome = true
    ∧ AlertService.checkRow (fun _ _ => none)
        { commodity_name := "gold", min_percent_change := 1 } demoGold = none := by
  constructor
  · refine ((claim_C9 (fun _ _ => some { price := 100, daily_pct := 0, weekly_pct := 0 })
        { commodity_name := "gold", min_percent_change := 1 } demoGold).2
        { price := 100, daily_pct := 0, weekly_pct := 0 } rfl).1.mpr ?_
    have h1 : ((demoGold.price - 100) / 100 * 100 : Rat) = 1 := by
      rw [demoGold]
      norm_num
    rw [if_neg (by norm_num : ¬(100 : Rat) = 0), h1]
    norm_num
  · exact (claim_C9 (fun _ _ => none)
      { commodity_name := "gold", min_percent_change := 1 } demoGold).1 rfl

/-- The four period tables of a category: each period label with the
category's top-3 names for that period, in the order D, W, M, Y. -/
def periodTables (cd : List Commodity) : List (String × List String) :=
  [("D", CommodityDataManager.top3Names (fun c => c.daily_pct) cd),
   ("W", CommodityDataManager.top3Names (fun c => c.weekly_pct) cd),
   ("M", CommodityDataManager.top3Names (fun c => c.monthly_pct) cd),
   ("Y", CommodityDataManager.top3Names (fun c => c.yearly_pct) cd)]

/-- The strong-lead rows of a category, re-expressed through the period
tables: the filter keeps exactly the names in the union of the four
top-3 sets. -/
theorem strongLeadsFor_eq (cd : List Commodity) :
    CommodityDataManager.strongLeadsFor cd =
      (cd.filter fun r => (periodTables cd).any (fun pt => pt.2.contains r.name)).map
        (CommodityDataManager.mkLeadRow
          (CommodityDataManager.top3Names (fun c => c.daily_pct) cd)
          (CommodityDataManager.top3Names (fun c => c.weekly_pct) cd)
          (CommodityDataManager.top3Names (fun c => c.monthly_pct) cd)
          (CommodityDataManager.top3Names (fun c => c.yearly_pct) cd)) := by
  rw [CommodityDataManager.strongLeadsFor]
  congr 1
  apply List.filter_congr
  intro r _
  simp [periodTables, Bool.or_assoc]

/-- C2: for every category record set, the strong leads are exactly the
records whose name lies in the set union of the four per-period top-3
name sets (in record order); every name in that union comes from a
record; and each selected entry's match count equals the number of
periods (between 1 and 4) whose top-3 contains its name, with the
matched periods being exactly those period labels. -/
theorem claim_C2 (cd : List Commodity) :
    ((CommodityDataManager.strongLeadsFor cd).map (fun e => e.name) =
        (cd.filter fun r =>
          (periodTables cd).any (fun pt => pt.2.contains r.name)).map
          (fun r => r.name))
    ∧ (∀ r ∈ cd,
        ((periodTables cd).any (fun pt => pt.2.contains r.name) = true ↔
          (CommodityDataManager.strongLeadsFor cd).any (fun e => e.name == r.name) = true))
    ∧ (∀ e ∈ CommodityDataManager.strongLeadsFor cd,
        (1 ≤ e.match_count ∧ e.match_count ≤ 4)
        ∧ e.match_count =
            ((periodTables cd).filter (fun pt => pt.2.contains e.name)).length
        ∧ e.matched_periods =
            ((periodTables cd).filter (fun pt => pt.2.contains e.name)).map
              (fun pt => pt.1))
    ∧ (∀ n : String, (periodTables cd).any (fun pt => pt.2.contains n) = true →
        ∃ r ∈ cd, r.name = n) := by
  refine ⟨?_, ?_, ?_, ?_⟩
  · rw [strongLeadsFor_eq, List.map_map]
    rfl
  · intro r hr
    rw [strongLeadsFor_eq]
    constructor
    · intro hu
      rw [List.any_eq_true]
      exact ⟨_, List.mem_map_of_mem _ (List.mem_filter.mpr ⟨hr, hu⟩),
        by simp [CommodityDataManager.mkLeadRow]⟩
    · intro he
      rw [List.any_eq_true] at he
      obtain ⟨e, hemem, hename⟩ := he
      obtain ⟨r2, hr2, rfl⟩ := List.mem_map.mp hemem
      have hr2u := (List.mem_filter.mp hr2).2
      have : r2.name = r.name := by simpa using hename
      rwa [this] at hr2u
  · intro e he
    rw [strongLeadsFor_eq] at he
    obtain ⟨r, hrmem, rfl⟩ := List.mem_map.mp he
    have hru := (List.mem_filter.mp hrmem).2
    simp only [List.any_eq_true] at hru
    rcases hd : (CommodityDataManager.top3Names (fun c => c.daily_pct) cd).contains r.name <;>
      rcases hw : (CommodityDataManager.top3Names (fun c => c.weekly_pct) cd).contains r.name <;>
        rcases hm : (CommodityDataManager.top3Names (fun c => c.monthly_pct) cd).contains r.name <;>
          rcases hy : (CommodityDataManager.top3Names (fun c => c.yearly_pct) cd).contains r.name <;>
            simp_all [CommodityDataManager.mkLeadRow, periodTables]
  · intro n hn
    simp only [List.any_eq_true] at hn
    obtain ⟨pt, hpt, hcont⟩ := hn
    have hmem : n ∈ pt.2 := by simpa using hcont
    simp only [periodTables, List.mem_cons, List.mem_singleton] at hpt
    rcases hpt with h | h | h | h | h <;> first
      | (subst h
         simp only [CommodityDataManager.top3Names] at hmem
         obtain ⟨r, hr, rfl⟩ := List.mem_map.mp hmem
         exact ⟨r, mem_nlargest hr, rfl⟩)
      | cases h

/-- Record builder for the strong-leads demonstration category. -/
def mkRec (n : String) (d w m y : Rat) : Commodity :=
  { asset := "Metals", name := n, unit := "u", price := 0, change := 0,
    daily_pct := d, weekly_pct := w, monthly_pct := m, yearly_pct := y,
    three_year_pct := 0, date := "" }

/-- The consensus demonstration category: one leader per period plus two
low records. -/
def demoLeads : List Commodity :=
  [mkRec "A" 5 1 1 1, mkRec "B" 1 5 1 1, mkRec "C" 1 1 5 1,
   mkRec "D" 0 0 0 0, mkRec "E" (-1) (-1) (-1) (-1)]

/-- The strong-lead entry of record A in the demonstration category. -/
def demoLeadEntry : CommodityDataManager.LeadRow :=
  { asset := "Metals", name := "A", unit := "u", price := 0, daily_pct := 5,
    weekly_pct := 1, monthly_pct := 1, yearly_pct := 1, date := "",
    match_count := 4, matched_periods := ["D", "W", "M", "Y"] }

/-- C2 witness: in the demonstration category, A (in the top 3 of all
four periods) is selected with match count 4 = the number of periods
whose top-3 contains it. -/
theorem claim_C2_witness :
    demoLeadEntry ∈ CommodityDataManager.strongLeadsFor demoLeads
    ∧ (1 ≤ demoLeadEntry.match_count ∧ demoLeadEntry.match_count ≤ 4)
    ∧ demoLeadEntry.match_count =
        ((periodTables demoLeads).filter
          (fun pt => pt.2.contains demoLeadEntry.name)).length
    ∧ demoLeadEntry.match_count = 4 :=
  ⟨by decide, ((claim_C2 demoLeads).2.2.1 demoLeadEntry (by decide)).1,
    ((claim_C2 demoLeads).2.2.1 demoLeadEntry (by decide)).2.1, by decide⟩

section StrongLeadOrder

open CommodityDataManager

/-- The sort comparator of get_strong_leads. -/
theorem leadCmp_asymm (a b : LeadRow)
    (h : keyLt (leadKey a) (leadKey b) = true) : keyLt (leadKey b) (leadKey a) = false := by
  rw [keyLt_eq_embed] at h ⊢
  exact decideKeyLt_asymm (fun e => keyEmbed (leadKey e)) a b h

theorem leadCmp_transneg (a b c : LeadRow)
    (h1 : keyLt (leadKey a) (leadKey b) = false)
    (h2 : keyLt (leadKey b) (leadKey c) = false) :
    keyLt (leadKey a) (leadKey c) = false := by
  rw [keyLt_eq_embed] at h1 h2 ⊢
  exact decideKeyLt_transneg (fun e => keyEmbed (leadKey e)) a b c h1 h2

theorem leadCmp_irr (a : LeadRow) : keyLt (leadKey a) (leadKey a) = false := by
  rw [keyLt_eq_embed]
  exact decideKeyLt_irr (fun e => keyEmbed (leadKey e)) a

end StrongLeadOrder

/-- A strong-lead row in the Energy category whose sort key ties the
Metals row below. -/
def tieRow1 : CommodityDataManager.LeadRow :=
  { asset := "Energy", name := "T1", unit := "u", price := 0, daily_pct := 9,
    weekly_pct := 1, monthly_pct := 1, yearly_pct := 0, date := "",
    match_count := 2, matched_periods := ["D", "W"] }

/-- A strong-lead row in the Metals category with the same sort key as
the Energy row above (match count 2, weekly 1, monthly 1) but different
contents. -/
def tieRow2 : CommodityDataManager.LeadRow :=
  { asset := "Metals", name := "T2", unit := "u", price := 0, daily_pct := 0,
    weekly_pct := 1, monthly_pct := 1, yearly_pct := 0, date := "",
    match_count := 2, matched_periods := ["W", "M"] }

/-- C3 (code bug): sort_values("_sort_tuple", ascending=False) with the
default quicksort kind guarantees only a permutation of the combined
rows that descends in the cross-category key — (matchCount, daily %,
weekly %) when matchCount is 1, (matchCount, weekly %, monthly %)
otherwise. Under every sort meeting that guarantee, rank is the 1-based
position in the final order and the per-category rank is the running
1-based counter over the same final order.  The claimed tie stability is
not a consequence of the code: two distinct rows with equal sort keys
(tieRow1, tieRow2) satisfy everything the sort guarantees in either
order, so "ties keep prior order" is not enforced. -/
theorem claim_C3 (l : List Commodity)
    (sortImpl : List CommodityDataManager.LeadRow → List CommodityDataManager.LeadRow)
    (hperm : List.Perm (sortImpl (CommodityDataManager.combinedLeads l))
        (CommodityDataManager.combinedLeads l))
    (hdesc : (sortImpl (CommodityDataManager.combinedLeads l)).Pairwise
        (fun a b =>
          CommodityDataManager.keyLt (CommodityDataManager.leadKey a)
            (CommodityDataManager.leadKey b) = false)) :
    (((CommodityDataManager.rankLeads sortImpl l).map (fun e => e.entry)).Pairwise
        (fun a b =>
          CommodityDataManager.keyLt (CommodityDataManager.leadKey a)
            (CommodityDataManager.leadKey b) = false))
    ∧ ((CommodityDataManager.rankLeads sortImpl l).map (fun e => e.entry)).Perm
        (CommodityDataManager.combinedLeads l)
    ∧ ((CommodityDataManager.rankLeads sortImpl l).map (fun e => e.rank) =
        List.range' 1 (CommodityDataManager.combinedLeads l).length)
    ∧ ((CommodityDataManager.rankLeads sortImpl l).map (fun e => e.rank_asset) =
        prefixCounts (fun e => e.asset) []
          ((CommodityDataManager.rankLeads sortImpl l).map (fun e => e.entry)))
    ∧ (CommodityDataManager.leadKey tieRow1 = CommodityDataManager.leadKey tieRow2
        ∧ tieRow1 ≠ tieRow2
        ∧ List.Perm [tieRow2, tieRow1] [tieRow1, tieRow2]
        ∧ ([tieRow1, tieRow2].Pairwise
            (fun a b =>
              CommodityDataManager.keyLt (CommodityDataManager.leadKey a)
                (CommodityDataManager.leadKey b) = false))
        ∧ ([tieRow2, tieRow1].Pairwise
            (fun a b =>
              CommodityDataManager.keyLt (CommodityDataManager.leadKey a)
                (CommodityDataManager.leadKey b) = false))) := by
  have hentry : (CommodityDataManager.rankLeads sortImpl l).map (fun e => e.entry) =
      sortImpl (CommodityDataManager.combinedLeads l) :=
    addRanks_map_entry _ _
  refine ⟨?_, ?_, ?_, ?_, ?_⟩
  · rw [hentry]
    exact hdesc
  · rw [hentry]
    exact hperm
  · rw [CommodityDataManager.rankLeads, addRanks_map_rank, hperm.length_eq]
  · rw [hentry, CommodityDataManager.rankLeads, addRanks_map_rank_asset]
  · exact ⟨by decide, by decide, List.Perm.swap tieRow1 tieRow2 [], by decide, by decide⟩

/-- C3 witness: the determinate ranking properties instantiated on the
demonstration category with one admissible sort implementation (a
descending sort is one possible quicksort outcome). -/
theorem claim_C3_witness :
    ((CommodityDataManager.rankLeads
        (sortDesc (fun a b =>
          CommodityDataManager.keyLt (CommodityDataManager.leadKey a)
            (CommodityDataManager.leadKey b))) demoLeads).map (fun e => e.rank)) =
      List.range' 1 (CommodityDataManager.combinedLeads demoLeads).length :=
  (claim_C3 demoLeads
      (sortDesc (fun a b =>
        CommodityDataManager.keyLt (CommodityDataManager.leadKey a)
          (CommodityDataManager.leadKey b)))
      (sortDesc_perm _ _)
      (sortDesc_pairwise _ leadCmp_asymm leadCmp_transneg _)).2.2.1
